import Mathlib

/-!
Shallow embedding of `compareDatasets.py`, a command-line tool that compares
two JSON dataset files by extracting sets of (aCommit, name) pairs and
reporting intersection and differences.

Modelling conventions:
* JSON documents are the inductive `Json` (mutual with `JsonList` and
  `JsonFields` so that decidable equality can be derived).
* Python `sys.exit(msg)` (a fatal error with non-zero exit status) is the
  `Except.error msg` branch; a normal return is `Except.ok`.
* Filesystem facts a function consults (existence of a file, the entries of
  a directory, the outcome of reading and JSON-parsing a file) are passed in
  explicitly as data.
* Python string helpers used by the script (`str.strip`, `str.isdigit`,
  `int`, string `<=` as used by `sorted`, `str.startswith(".")`) are embedded
  as character-list functions so that every definition evaluates by `decide`.
-/

namespace CompareDatasets

mutual
/-- A JSON value, as produced by Python `json.load`. -/
inductive Json where
  | null
  | bool (b : Bool)
  | num (n : Int)
  | str (s : String)
  | arr (elems : JsonList)
  | obj (fields : JsonFields)
  deriving DecidableEq
/-- A list of JSON values (spine of a JSON array). -/
inductive JsonList where
  | nil
  | cons (head : Json) (tail : JsonList)
  deriving DecidableEq
/-- The fields of a JSON object, in insertion order, keys unique. -/
inductive JsonFields where
  | nil
  | cons (key : String) (val : Json) (tail : JsonFields)
  deriving DecidableEq
end

/-- The elements of a JSON array as a Lean list. -/
def JsonList.toList : JsonList → List Json
  | .nil => []
  | .cons h t => h :: toList t

/-- Build a `JsonList` from a Lean list. -/
def JsonList.ofList : List Json → JsonList
  | [] => .nil
  | h :: t => .cons h (ofList t)

/-- Python `entry[k]` / `k in entry` on a JSON object: look up a key. -/
def JsonFields.lookup : JsonFields → String → Option Json
  | .nil, _ => none
  | .cons k v t, key => if k = key then some v else t.lookup key

/-- The keys of a JSON object, in order (Python iterates a dict by its keys). -/
def JsonFields.keys : JsonFields → List String
  | .nil => []
  | .cons k _ t => k :: t.keys

/-- A Pair Key: the tuple `(entry["aCommit"], entry["name"])`. -/
abbrev PairKey := Json × Json

/-- Python string `<=` on character lists: lexicographic by code point. -/
def lexLe : List Char → List Char → Bool
  | [], _ => true
  | _ :: _, [] => false
  | a :: as, b :: bs =>
    if a.toNat < b.toNat then true
    else if b.toNat < a.toNat then false
    else lexLe as bs

/-- Python string `<=`, as used by `sorted` on lists of names. -/
def pyStrLe (a b : String) : Bool := lexLe a.data b.data

/-- Python `sorted` on a list of strings (ascending lexicographic order). -/
def pySorted (l : List String) : List String :=
  List.insertionSort (fun a b => pyStrLe a b = true) l

/-- Python `str.strip()`: drop leading and trailing whitespace. -/
def pyStrip (s : String) : String :=
  ⟨((s.data.dropWhile Char.isWhitespace).reverse.dropWhile Char.isWhitespace).reverse⟩

/-- Python `str.isdigit()` (ASCII digits): non-empty and all digits. -/
def pyIsDigit (s : String) : Bool := !s.data.isEmpty && s.data.all Char.isDigit

/-- Python `int` on a digit-only string. -/
def pyDigitsToNat (s : String) : Nat :=
  s.data.foldl (fun n c => 10 * n + (c.toNat - 48)) 0

/-- Python `name.startswith(".")`. -/
def startsDot (s : String) : Bool :=
  match s.data with
  | c :: _ => c = '.'
  | [] => false

/-- One entry of a directory listing: its name and whether it is a directory. -/
structure DirEntry where
  name : String
  isDir : Bool
  deriving DecidableEq

/-- `list_dirs(p)`: the comprehension
`sorted([d.name for d in p.iterdir() if p.is_dir() and not d.name.startswith(".")])`.
`pIsDir` is the value of `p.is_dir()` (the parent itself, not the entry `d` —
the guard never consults `d.is_dir()`); `entries` is `p.iterdir()`. -/
def list_dirs (pIsDir : Bool) (entries : List DirEntry) : List String :=
  pySorted ((entries.filter (fun d => pIsDir && !startsDot d.name)).map (fun d => d.name))

/-- The comprehension filter of `load_pairs`:
`isinstance(entry, dict) and "aCommit" in entry and "name" in entry`,
returning `(entry["aCommit"], entry["name"])` when it holds. -/
def keyOf : Json → Option PairKey
  | .obj fields =>
    match fields.lookup "aCommit", fields.lookup "name" with
    | some c, some n => some (c, n)
    | _, _ => none
  | _ => none

/-- The value of the set comprehension of `load_pairs` on the runs where it
succeeds: the set of Pair Keys of the entries that pass the filter. Building
the Python set also hashes each pair, which raises `TypeError` when a
component is a list or dict; `extractPairsH` models that full behaviour and
agrees with this function whenever it returns a set (`extractPairsH_ok`). -/
def extractPairs (entries : List Json) : Finset PairKey :=
  (entries.filterMap keyOf).toFinset

/-- Whether hashing this value raises: Python lists and dicts are unhashable,
so a JSON array or object as a tuple component raises `TypeError` when the
pair is inserted into the set; `None`, booleans, numbers and strings hash. -/
def hashErr : Json → Option String
  | .arr _ => some "TypeError: unhashable type: 'list'"
  | .obj _ => some "TypeError: unhashable type: 'dict'"
  | _ => none

/-- Insertion of one pair into the set under construction: hashing the tuple
hashes its components in order, so the first unhashable component raises. -/
def insertPair (p : PairKey) (acc : Finset PairKey) : Except String (Finset PairKey) :=
  match hashErr p.1 with
  | some m => .error m
  | none =>
    match hashErr p.2 with
    | some m => .error m
    | none => .ok (insert p acc)

/-- The set comprehension of `load_pairs`, entry by entry in order: entries
failing the filter are skipped; each passing entry's pair is inserted, and
the first unhashable component aborts with `TypeError`. -/
def extractPairsAux (acc : Finset PairKey) : List Json → Except String (Finset PairKey)
  | [] => .ok acc
  | e :: rest =>
    match keyOf e with
    | none => extractPairsAux acc rest
    | some p =>
      match insertPair p acc with
      | .ok acc2 => extractPairsAux acc2 rest
      | .error m => .error m

/-- The set comprehension of `load_pairs` with Python's insertion semantics:
either the loaded set, or the `TypeError` raised on an unhashable pair. -/
def extractPairsH (entries : List Json) : Except String (Finset PairKey) :=
  extractPairsAux ∅ entries

/-- Python `for entry in data`: the sequence iterated over, if `data` is
iterable. An array yields its elements, a dict its keys (as strings), a
string its characters (as one-character strings); other values raise
`TypeError`. -/
def iterElems : Json → Option (List Json)
  | .arr xs => some xs.toList
  | .obj fields => some (fields.keys.map Json.str)
  | .str s => some (s.data.map (fun c => Json.str ⟨[c]⟩))
  | _ => none

deriving instance DecidableEq for Except

/-- The outcome of `json_path.open()` followed by `json.load(f)`. -/
inductive ReadOutcome where
  | notFound
  | badJson (err : String)
  | parsed (data : Json)
  deriving DecidableEq

/-- What the program observes about one dataset file: its resolved path, its
existence, its parent directory path, the names in the parent directory
(`none` when the parent does not exist), and the read/parse outcome. -/
structure FileModel where
  path : String
  fileExists : Bool
  parentPath : String
  parentEntries : Option (List String)
  read : ReadOutcome

/-- `load_pairs(json_path)`: fatal exit on `FileNotFoundError` or
`JSONDecodeError`, otherwise the extracted set of Pair Keys. A non-iterable
top-level value raises an uncaught `TypeError`. The success value is
`extractPairs`, the comprehension's value on its non-crashing runs;
`load_pairsH` is the variant that also models the comprehension's
`TypeError` on an unhashable pair component. -/
def load_pairs (m : FileModel) : Except String (Finset PairKey) :=
  match m.read with
  | .notFound => .error ("[ERR] File not found: " ++ m.path)
  | .badJson e => .error ("[ERR] Invalid JSON in " ++ m.path ++ ": " ++ e)
  | .parsed data =>
    match iterElems data with
    | some entries => .ok (extractPairs entries)
    | none => .error "TypeError: object is not iterable"

/-- `load_pairs(json_path)` with the set comprehension's insertion semantics
(`extractPairsH`): identical to `load_pairs` except that a passing entry
whose commit or name value is unhashable surfaces the uncaught `TypeError`
instead of landing in the set. -/
def load_pairsH (m : FileModel) : Except String (Finset PairKey) :=
  match m.read with
  | .notFound => .error ("[ERR] File not found: " ++ m.path)
  | .badJson e => .error ("[ERR] Invalid JSON in " ++ m.path ++ ": " ++ e)
  | .parsed data =>
    match iterElems data with
    | some entries => extractPairsH entries
    | none => .error "TypeError: object is not iterable"

/-- `ensure_file(path)`: fatal exit naming the path when the file does not
exist, with a sorted listing of the parent directory appended as a hint when
the parent exists. -/
def ensure_file (m : FileModel) : Except String Unit :=
  if m.fileExists then .ok () else
    let hint :=
      match m.parentEntries with
      | some names =>
        "\n[HINT] Contents of " ++ m.parentPath ++ ":\n  " ++
          String.intercalate "\n  " (pySorted names)
      | none => ""
    .error ("[ERR] File not found: " ++ m.path ++ hint)

/-- The input-validation loop of `choose_from_list`: take input lines one by
one; strip; on a digit string whose value is in `1..len(items)` return that
item (1-based); otherwise print `Invalid choice` and re-prompt. `none` means
the supplied input lines ran out (the real loop would keep prompting). -/
def choose_loop (items : List String) : List String → Option String
  | [] => none
  | line :: rest =>
    let choice := pyStrip line
    if pyIsDigit choice then
      let idx := pyDigitsToNat choice
      if 1 ≤ idx ∧ idx ≤ items.length then items[idx - 1]?
      else choose_loop items rest
    else choose_loop items rest

/-- `choose_from_list(title, items)` fed the given input lines: fatal exit
when `items` is empty, otherwise the result of the validation loop. -/
def choose_from_list (title : String) (items : List String)
    (inputs : List String) : Except String (Option String) :=
  if items.isEmpty then .error ("[ERR] No options found for " ++ title ++ ".")
  else .ok (choose_loop items inputs)

/-- The three derived sets the Differ computes in `main`. -/
structure CompareResult where
  missing : Finset PairKey
  extra : Finset PairKey
  matched : Finset PairKey
  deriving DecidableEq

/-- Lines 129-131 of `main`:
`missing = gold_set - mine_set`, `extra = mine_set - gold_set`,
`matched = gold_set & mine_set`. -/
def runDiff (gold_set mine_set : Finset PairKey) : CompareResult :=
  { missing := gold_set \ mine_set
    extra := mine_set \ gold_set
    matched := gold_set ∩ mine_set }

/-- The tail of `main` once both paths are resolved: `ensure_file` on both
files, `load_pairs` on both files, then the Differ. -/
def comparePipeline (gold mine : FileModel) : Except String CompareResult := do
  ensure_file gold
  ensure_file mine
  let gold_set ← load_pairs gold
  let mine_set ← load_pairs mine
  return runDiff gold_set mine_set

/-- The spec's notion of a relevant Dataset Entry, stated for comparison with
the code's filter `keyOf`: "relevant only if it is a mapping containing both
a commit identifier (string) and a name (string)". -/
def specRelevantEntry : Json → Bool
  | .obj fields =>
    (match fields.lookup "aCommit" with
     | some (.str _) => true
     | _ => false) &&
    (match fields.lookup "name" with
     | some (.str _) => true
     | _ => false)
  | _ => false

theorem lexLe_cons (a b : Char) (as bs : List Char) :
    lexLe (a :: as) (b :: bs) = true ↔
      a.toNat < b.toNat ∨ (a.toNat = b.toNat ∧ lexLe as bs = true) := by
  rcases lt_trichotomy a.toNat b.toNat with h | h | h
  · simp [lexLe, h]
  · simp [lexLe, h, lt_irrefl]
  · simp [lexLe, lt_asymm h, h, ne_of_gt h]

theorem lexLe_total (as : List Char) : ∀ bs, lexLe as bs = true ∨ lexLe bs as = true := by
  induction as with
  | nil => intro bs; left; rfl
  | cons a as ih =>
    intro bs
    cases bs with
    | nil => right; rfl
    | cons b bs =>
      rcases lt_trichotomy a.toNat b.toNat with h | h | h
      · left; rw [lexLe_cons]; exact Or.inl h
      · rcases ih bs with htl | htl
        · left; rw [lexLe_cons]; exact Or.inr ⟨h, htl⟩
        · right; rw [lexLe_cons]; exact Or.inr ⟨h.symm, htl⟩
      · right; rw [lexLe_cons]; exact Or.inl h

theorem lexLe_trans (as : List Char) :
    ∀ bs cs, lexLe as bs = true → lexLe bs cs = true → lexLe as cs = true := by
  induction as with
  | nil => intro bs cs _ _; rfl
  | cons a as ih =>
    intro bs cs h1 h2
    cases bs with
    | nil => simp [lexLe] at h1
    | cons b bs =>
      cases cs with
      | nil => simp [lexLe] at h2
      | cons c cs =>
        rw [lexLe_cons] at h1 h2 ⊢
        rcases h1 with h1 | ⟨h1e, h1t⟩
        · rcases h2 with h2 | ⟨h2e, _⟩
          · exact Or.inl (lt_trans h1 h2)
          · exact Or.inl (h2e ▸ h1)
        · rcases h2 with h2 | ⟨h2e, h2t⟩
          · exact Or.inl (h1e ▸ h2)
          · exact Or.inr ⟨h1e.trans h2e, ih bs cs h1t h2t⟩

instance : IsTotal String (fun a b => pyStrLe a b = true) :=
  ⟨fun a b => lexLe_total a.data b.data⟩

instance : IsTrans String (fun a b => pyStrLe a b = true) :=
  ⟨fun a b c h1 h2 => lexLe_trans a.data b.data c.data h1 h2⟩

theorem JsonList.toList_ofList (l : List Json) : (JsonList.ofList l).toList = l := by
  induction l with
  | nil => rfl
  | cons h t ih => simp [JsonList.ofList, JsonList.toList, ih]

theorem filterMap_keyOf_str (ks : List String) :
    (ks.map Json.str).filterMap keyOf = [] := by
  induction ks with
  | nil => rfl
  | cons k t ih => simp [List.filterMap_cons, keyOf, ih]

/-- Claim C1: for every pair of loaded dataset sets gold and mine, the Differ
computes matched = gold ∩ mine, missing = gold − mine (pairs present in gold
and absent in mine), and extra = mine − gold (pairs present in mine and
absent in gold). -/
theorem claim_C1 (gold_set mine_set : Finset PairKey) (p : PairKey) :
    (p ∈ (runDiff gold_set mine_set).matched ↔ p ∈ gold_set ∧ p ∈ mine_set) ∧
    (p ∈ (runDiff gold_set mine_set).missing ↔ p ∈ gold_set ∧ p ∉ mine_set) ∧
    (p ∈ (runDiff gold_set mine_set).extra ↔ p ∈ mine_set ∧ p ∉ gold_set) :=
  ⟨Finset.mem_inter, Finset.mem_sdiff, Finset.mem_sdiff⟩

/-- Claim C4: for any two dataset sets A (gold) and B (mine), the three
computed result sets satisfy missing ∩ extra = ∅, matched ∪ missing = A, and
matched ∪ extra = B. -/
theorem claim_C4 (A B : Finset PairKey) :
    (runDiff A B).missing ∩ (runDiff A B).extra = ∅ ∧
    (runDiff A B).matched ∪ (runDiff A B).missing = A ∧
    (runDiff A B).matched ∪ (runDiff A B).extra = B := by
  refine ⟨?_, ?_, ?_⟩ <;> ext p <;> simp [runDiff] <;> tauto

/-- Claim C7: for any two dataset sets A and B, comparing (A, B) and then
(B, A) swaps the roles of the missing and extra result sets while the
matched set is unchanged. -/
theorem claim_C7 (A B : Finset PairKey) :
    (runDiff A B).missing = (runDiff B A).extra ∧
    (runDiff A B).extra = (runDiff B A).missing ∧
    (runDiff A B).matched = (runDiff B A).matched :=
  ⟨rfl, rfl, by simp [runDiff, Finset.inter_comm]⟩

/-- Claim C3 (code bug): the filter of `list_dirs` tests `p.is_dir()` — the
parent directory, which is always a directory — instead of `d.is_dir()`, so
the name of a regular file does appear among the candidates: a directory
holding the regular file `notes.txt` and the subdirectory `sub` yields the
candidate list `["notes.txt", "sub"]`, not `["sub"]`. -/
theorem claim_C3 :
    list_dirs true [⟨"notes.txt", false⟩, ⟨"sub", true⟩] = ["notes.txt", "sub"] ∧
    (DirEntry.mk "notes.txt" false).isDir = false ∧
    "notes.txt" ∈ list_dirs true [⟨"notes.txt", false⟩, ⟨"sub", true⟩] := by decide

/-- Claim C10: for every directory consulted during path discovery, the
candidate list is sorted ascending in the lexicographic (code-point) order
`pyStrLe`; as `list_dirs` is a pure function of the directory listing, the
menu ordering is deterministic for fixed directory content. -/
theorem claim_C10 (pIsDir : Bool) (entries : List DirEntry) :
    List.Sorted (fun a b => pyStrLe a b = true) (list_dirs pIsDir entries) :=
  List.sorted_insertionSort _ _

theorem extractPairsAux_subset (l : List Json) :
    ∀ acc s, extractPairsAux acc l = .ok s → acc ⊆ s := by
  induction l with
  | nil =>
    intro acc s h
    cases h
    exact Finset.Subset.refl _
  | cons e rest ih =>
    intro acc s h
    simp only [extractPairsAux] at h
    cases hk : keyOf e with
    | none =>
      simp only [hk] at h
      exact ih acc s h
    | some p =>
      simp only [hk] at h
      cases hins : insertPair p acc with
      | error m => exact Except.noConfusion (by simpa only [hins] using h)
      | ok acc2 =>
        simp only [hins] at h
        have hacc2 : acc2 = insert p acc := by
          unfold insertPair at hins
          cases h1 : hashErr p.1 <;> rw [h1] at hins
          · cases h2 : hashErr p.2 <;> rw [h2] at hins
            · injection hins with hins; exact hins.symm
            · cases hins
          · cases hins
        have hsub : acc ⊆ acc2 := hacc2 ▸ Finset.subset_insert p acc
        exact hsub.trans (ih acc2 s h)

theorem extractPairsAux_ok_eq (l : List Json) :
    ∀ acc s, extractPairsAux acc l = .ok s → s = acc ∪ extractPairs l := by
  induction l with
  | nil =>
    intro acc s h
    cases h
    simp [extractPairs]
  | cons e rest ih =>
    intro acc s h
    simp only [extractPairsAux] at h
    cases hk : keyOf e with
    | none =>
      simp only [hk] at h
      rw [ih acc s h]
      simp [extractPairs, List.filterMap_cons, hk]
    | some p =>
      simp only [hk] at h
      cases hins : insertPair p acc with
      | error m => exact Except.noConfusion (by simpa only [hins] using h)
      | ok acc2 =>
        simp only [hins] at h
        have hacc2 : acc2 = insert p acc := by
          unfold insertPair at hins
          cases h1 : hashErr p.1 <;> rw [h1] at hins
          · cases h2 : hashErr p.2 <;> rw [h2] at hins
            · injection hins with hins; exact hins.symm
            · cases hins
          · cases hins
        rw [ih acc2 s h, hacc2]
        ext a
        simp [extractPairs, List.filterMap_cons, hk]

/-- The entrywise comprehension agrees with `extractPairs` whenever it
returns a set: `extractPairs` is its value on the non-crashing runs. -/
theorem extractPairsH_ok (entries : List Json) (s : Finset PairKey) :
    extractPairsH entries = .ok s → s = extractPairs entries := by
  intro h
  have := extractPairsAux_ok_eq entries ∅ s h
  simpa using this

/-- Claim C2 counterexample: the entry `{"aCommit": 42, "name": "t"}` is not
relevant by the spec's wording (its commit identifier is not a string), yet
the code's filter accepts it and it contributes the Pair Key `(42, "t")` to
the loaded set, so "contributes if and only if ... a commit identifier that
is a string and a name that is a string" is false at this input; moreover
the entry `{"aCommit": [], "name": "t"}` also passes the filter but raises
an uncaught `TypeError` when its pair is inserted into the set, so "skipping
never raises an error" does not extend to non-string values either. -/
theorem claim_C2_cex :
    specRelevantEntry
        (Json.obj (.cons "aCommit" (.num 42) (.cons "name" (.str "t") .nil))) = false ∧
    keyOf (Json.obj (.cons "aCommit" (.num 42) (.cons "name" (.str "t") .nil))) =
      some (Json.num 42, Json.str "t") ∧
    extractPairsH [Json.obj (.cons "aCommit" (.num 42) (.cons "name" (.str "t") .nil))] =
      .ok {(Json.num 42, Json.str "t")} ∧
    keyOf (Json.obj (.cons "aCommit" (.arr .nil) (.cons "name" (.str "t") .nil))) =
      some (Json.arr .nil, Json.str "t") ∧
    extractPairsH [Json.obj (.cons "aCommit" (.arr .nil) (.cons "name" (.str "t") .nil))] =
      .error "TypeError: unhashable type: 'list'" := by decide

/-- Claim C2 (amended): an element contributes a Pair Key to the loaded set
if and only if it is a mapping containing both the commit identifier key and
the name key with both values hashable — string-typed values are not
required (e.g. a numeric commit identifier is accepted). An element of any
other shape is skipped silently, and skipping never raises an error; but a
mapping with both keys whose commit or name value is a JSON array or object
(a Python list or dict, unhashable) raises an uncaught `TypeError` when its
pair is inserted into the set, aborting the load. -/
theorem claim_C2 (e : Json) :
    ((keyOf e).isSome ↔ ∃ fields, e = Json.obj fields ∧
      (fields.lookup "aCommit").isSome ∧ (fields.lookup "name").isSome) ∧
    (∀ l, keyOf e = none → extractPairsH (e :: l) = extractPairsH l) ∧
    (∀ c n l s, keyOf e = some (c, n) → hashErr c = none → hashErr n = none →
      extractPairsH (e :: l) = .ok s → (c, n) ∈ s) ∧
    (∀ c n l, keyOf e = some (c, n) →
      ((hashErr c).isSome ∨ (hashErr n).isSome) →
      ∃ m, extractPairsH (e :: l) = .error m) ∧
    (∀ path pp ex pe entries,
      load_pairsH ⟨path, ex, pp, pe, .parsed (.arr (.ofList entries))⟩ =
        extractPairsH entries) := by
  refine ⟨?_, ?_, ?_, ?_, ?_⟩
  · cases e with
    | null => simp [keyOf]
    | bool b => simp [keyOf]
    | num n => simp [keyOf]
    | str s => simp [keyOf]
    | arr xs => simp [keyOf]
    | obj fields =>
      cases hc : fields.lookup "aCommit" <;> cases hn : fields.lookup "name" <;>
        simp [keyOf, hc, hn]
  · intro l hk
    simp [extractPairsH, extractPairsAux, hk]
  · intro c n l s hk h1 h2 hok
    simp only [extractPairsH, extractPairsAux, hk, insertPair, h1, h2] at hok
    exact extractPairsAux_subset l _ s hok (Finset.mem_insert_self _ _)
  · intro c n l hk hbad
    cases h1 : hashErr c with
    | some m =>
      exact ⟨m, by simp [extractPairsH, extractPairsAux, hk, insertPair, h1]⟩
    | none =>
      cases h2 : hashErr n with
      | some m =>
        exact ⟨m, by simp [extractPairsH, extractPairsAux, hk, insertPair, h1, h2]⟩
      | none =>
        rw [h1, h2] at hbad
        simp at hbad
  · intro path pp ex pe entries
    simp [load_pairsH, iterElems, JsonList.toList_ofList]

/-- Claim C2 witness: a non-qualifying element is skipped leaving the load
unchanged; the accepted numeric-commit entry's pair lands in the loaded set;
an array-valued commit aborts the load with a `TypeError`. -/
theorem claim_C2_witness :
    extractPairsH [Json.num 1] = extractPairsH [] ∧
    (Json.num 42, Json.str "t") ∈ ({(Json.num 42, Json.str "t")} : Finset PairKey) ∧
    (∃ m, extractPairsH
      [Json.obj (.cons "aCommit" (.arr .nil) (.cons "name" (.str "t") .nil))] =
        .error m) := by
  refine ⟨?_, ?_, ?_⟩
  · exact (claim_C2 (Json.num 1)).2.1 [] rfl
  · exact (claim_C2
      (Json.obj (.cons "aCommit" (.num 42) (.cons "name" (.str "t") .nil)))).2.2.1
      (Json.num 42) (Json.str "t") [] {(Json.num 42, Json.str "t")}
      (by decide) rfl rfl (by decide)
  · exact (claim_C2
      (Json.obj (.cons "aCommit" (.arr .nil) (.cons "name" (.str "t") .nil)))).2.2.2.1
      (Json.arr .nil) (Json.str "t") [] (by decide) (Or.inl (by decide))

/-- Claim C8: duplicate entries collapse: a JSON array containing two
identical entries loads to the same Dataset Set as the array containing a
single such entry, wherever the duplicate occurs. -/
theorem claim_C8 (path pp : String) (ex : Bool) (pe : Option (List String))
    (l1 l2 l3 : List Json) (e : Json) :
    extractPairs (l1 ++ e :: l2 ++ e :: l3) = extractPairs (l1 ++ e :: l2 ++ l3) ∧
    load_pairs ⟨path, ex, pp, pe, .parsed (.arr (.ofList (l1 ++ e :: l2 ++ e :: l3)))⟩ =
      load_pairs ⟨path, ex, pp, pe, .parsed (.arr (.ofList (l1 ++ e :: l2 ++ l3)))⟩ := by
  have hset : extractPairs (l1 ++ e :: l2 ++ e :: l3) = extractPairs (l1 ++ e :: l2 ++ l3) := by
    ext p
    simp only [extractPairs, List.mem_toFinset, List.mem_filterMap, List.mem_append,
      List.mem_cons]
    constructor
    · rintro ⟨a, ha, hk⟩
      exact ⟨a, by tauto, hk⟩
    · rintro ⟨a, ha, hk⟩
      exact ⟨a, by tauto, hk⟩
  refine ⟨hset, ?_⟩
  simp only [load_pairs, iterElems, JsonList.toList_ofList]
  rw [hset]

/-- Claim C9: a file whose contents parse to a top-level JSON object or to a
JSON string loads to the empty set of Pair Keys without any error (Python
iterates a dict by its keys and a string by its characters, all of which are
strings and so are filtered out), and the comparison proceeds treating that
side as empty. -/
theorem claim_C9 (path pp : String) (ex : Bool) (pe : Option (List String))
    (fields : JsonFields) (s : String) :
    load_pairs ⟨path, ex, pp, pe, .parsed (.obj fields)⟩ = .ok ∅ ∧
    load_pairs ⟨path, ex, pp, pe, .parsed (.str s)⟩ = .ok ∅ ∧
    (∀ mine mine_set, mine.fileExists = true → load_pairs mine = .ok mine_set →
      comparePipeline ⟨path, true, pp, pe, .parsed (.obj fields)⟩ mine =
        .ok (runDiff ∅ mine_set)) := by
  have hobj : extractPairs (fields.keys.map Json.str) = ∅ := by
    rw [extractPairs, filterMap_keyOf_str]; rfl
  have hstr : extractPairs (s.data.map (fun c => Json.str ⟨[c]⟩)) = ∅ := by
    have hmm : s.data.map (fun c => Json.str ⟨[c]⟩) =
        (s.data.map (fun c => (⟨[c]⟩ : String))).map Json.str := by
      simp [List.map_map]
    rw [extractPairs, hmm, filterMap_keyOf_str]; rfl
  have h1 : load_pairs ⟨path, ex, pp, pe, .parsed (.obj fields)⟩ = .ok ∅ := by
    simp [load_pairs, iterElems, hobj]
  refine ⟨h1, ?_, ?_⟩
  · simp [load_pairs, iterElems, hstr]
  · intro mine mine_set hex hload
    have h1t : load_pairs ⟨path, true, pp, pe, .parsed (.obj fields)⟩ = .ok ∅ := by
      simp [load_pairs, iterElems, hobj]
    simp [comparePipeline, ensure_file, hex, h1t, hload, Bind.bind, Except.bind,
      pure, Except.pure]

/-- Claim C9 witness: with a GOLD file parsing to the empty JSON object and a
MINE file parsing to the empty array, the pipeline returns the diff of two
empty sets. -/
theorem claim_C9_witness :
    comparePipeline
      { path := "g", fileExists := true, parentPath := "p", parentEntries := none,
        read := .parsed (.obj .nil) }
      { path := "m", fileExists := true, parentPath := "q", parentEntries := none,
        read := .parsed (.arr .nil) } = .ok (runDiff ∅ ∅) :=
  (claim_C9 "g" "p" true none .nil "").2.2
    { path := "m", fileExists := true, parentPath := "q", parentEntries := none,
      read := .parsed (.arr .nil) } ∅ rfl (by decide)

/-- Claim C5: loading fails fatally with a message naming the path when the
file does not exist (with the sorted parent-directory listing appended as a
hint when the parent exists), and fails fatally with a message including the
parser diagnostic when the contents are not valid JSON; in both cases the
pipeline never reaches the comparison (no `ok` result). -/
theorem claim_C5 (gold mine : FileModel) :
    (gold.fileExists = false →
      (∀ names, gold.parentEntries = some names →
        comparePipeline gold mine =
          .error ("[ERR] File not found: " ++ gold.path ++
            ("\n[HINT] Contents of " ++ gold.parentPath ++ ":\n  " ++
              String.intercalate "\n  " (pySorted names)))) ∧
      (gold.parentEntries = none →
        comparePipeline gold mine = .error ("[ERR] File not found: " ++ gold.path)) ∧
      ∀ r, comparePipeline gold mine ≠ .ok r) ∧
    (∀ e, gold.fileExists = true → mine.fileExists = true → gold.read = .badJson e →
      comparePipeline gold mine =
        .error ("[ERR] Invalid JSON in " ++ gold.path ++ ": " ++ e) ∧
      ∀ r, comparePipeline gold mine ≠ .ok r) := by
  constructor
  · intro hex
    have herr : ∀ msg, ensure_file gold = .error msg →
        comparePipeline gold mine = .error msg := by
      intro msg h
      simp [comparePipeline, Bind.bind, Except.bind, h]
    have hmsgSome : ∀ names, gold.parentEntries = some names →
        ensure_file gold =
          .error ("[ERR] File not found: " ++ gold.path ++
            ("\n[HINT] Contents of " ++ gold.parentPath ++ ":\n  " ++
              String.intercalate "\n  " (pySorted names))) := by
      intro names hpe
      simp [ensure_file, hex, hpe]
    have hmsgNone : gold.parentEntries = none →
        ensure_file gold = .error ("[ERR] File not found: " ++ gold.path) := by
      intro hpe
      simp [ensure_file, hex, hpe, String.append_empty]
    refine ⟨fun names hpe => herr _ (hmsgSome names hpe),
      fun hpe => herr _ (hmsgNone hpe), ?_⟩
    intro r
    cases hpe : gold.parentEntries with
    | none => rw [herr _ (hmsgNone hpe)]; simp
    | some names => rw [herr _ (hmsgSome names hpe)]; simp
  · intro e hgex hmex hread
    have hg : ensure_file gold = .ok () := by simp [ensure_file, hgex]
    have hm : ensure_file mine = .ok () := by simp [ensure_file, hmex]
    have hl : load_pairs gold = .error ("[ERR] Invalid JSON in " ++ gold.path ++ ": " ++ e) := by
      simp [load_pairs, hread]
    have hpipe : comparePipeline gold mine =
        .error ("[ERR] Invalid JSON in " ++ gold.path ++ ": " ++ e) := by
      simp [comparePipeline, Bind.bind, Except.bind, hg, hm, hl]
    exact ⟨hpipe, fun r => by rw [hpipe]; simp⟩

/-- Claim C5 witness: a missing GOLD file (whose parent holds entries `b` and
`a`) aborts with the path and the sorted hint; a GOLD file with invalid JSON
aborts with the parser diagnostic. -/
theorem claim_C5_witness :
    comparePipeline
        { path := "g", fileExists := false, parentPath := "p",
          parentEntries := some ["b", "a"], read := .notFound }
        { path := "m", fileExists := true, parentPath := "q", parentEntries := none,
          read := .parsed (.arr .nil) } =
      .error "[ERR] File not found: g\n[HINT] Contents of p:\n  a\n  b" ∧
    comparePipeline
        { path := "g", fileExists := true, parentPath := "p", parentEntries := none,
          read := .badJson "Expecting value: line 1 column 1 (char 0)" }
        { path := "m", fileExists := true, parentPath := "q", parentEntries := none,
          read := .parsed (.arr .nil) } =
      .error "[ERR] Invalid JSON in g: Expecting value: line 1 column 1 (char 0)" := by
  constructor
  · exact ((claim_C5
      { path := "g", fileExists := false, parentPath := "p",
        parentEntries := some ["b", "a"], read := .notFound }
      { path := "m", fileExists := true, parentPath := "q", parentEntries := none,
        read := .parsed (.arr .nil) }).1 rfl).1 ["b", "a"] rfl
  · exact ((claim_C5
      { path := "g", fileExists := true, parentPath := "p", parentEntries := none,
        read := .badJson "Expecting value: line 1 column 1 (char 0)" }
      { path := "m", fileExists := true, parentPath := "q", parentEntries := none,
        read := .parsed (.arr .nil) }).2
      "Expecting value: line 1 column 1 (char 0)" rfl rfl rfl).1

/-- Claim C6: the chooser fails fatally with a message naming the title when
the candidate list is empty; on a numeric input line with value k in
1..n it returns the k-th candidate (1-based); on a non-numeric or
out-of-range input line it re-prompts (consumes the line and behaves as the
loop on the remaining input) rather than failing. -/
theorem claim_C6 (title : String) (items : List String) :
    (∀ inputs, choose_from_list title [] inputs =
      .error ("[ERR] No options found for " ++ title ++ ".")) ∧
    (∀ line rest k, pyIsDigit (pyStrip line) = true → pyDigitsToNat (pyStrip line) = k →
      1 ≤ k → k ≤ items.length →
      choose_from_list title items (line :: rest) = .ok items[k - 1]? ∧
      ∃ x, items[k - 1]? = some x) ∧
    (∀ line rest, items ≠ [] →
      (pyIsDigit (pyStrip line) = false ∨
        ¬(1 ≤ pyDigitsToNat (pyStrip line) ∧ pyDigitsToNat (pyStrip line) ≤ items.length)) →
      choose_from_list title items (line :: rest) = choose_from_list title items rest) := by
  refine ⟨fun inputs => rfl, ?_, ?_⟩
  · intro line rest k hd hk h1 h2
    have hlt : k - 1 < items.length := by omega
    have hne : items.isEmpty = false := by
      cases items with
      | nil => simp at h2; omega
      | cons a t => rfl
    constructor
    · simp [choose_from_list, hne, choose_loop, hd, hk, h1, h2]
    · exact ⟨items[k - 1], List.getElem?_eq_getElem hlt⟩
  · intro line rest hne hbad
    have hne2 : items.isEmpty = false := by
      cases items with
      | nil => exact absurd rfl hne
      | cons a t => rfl
    rcases hbad with hd | hrange
    · simp [choose_from_list, hne2, choose_loop, hd]
    · by_cases hd : pyIsDigit (pyStrip line) = true
      · simp [choose_from_list, hne2, choose_loop, hd, hrange]
      · simp [choose_from_list, hne2, choose_loop, hd]

/-- Claim C6 witness: an empty candidate list aborts naming the title; the
input line " 2 " against candidates `["a", "b"]` selects "b"; the invalid
line "x" is consumed and the loop continues with the remaining input. -/
theorem claim_C6_witness :
    choose_from_list "GOLD student (miner)" [] [] =
      .error "[ERR] No options found for GOLD student (miner)." ∧
    choose_from_list "GOLD student (miner)" ["a", "b"] [" 2 "] = .ok (some "b") ∧
    choose_from_list "GOLD student (miner)" ["a"] ["x", "1"] =
      choose_from_list "GOLD student (miner)" ["a"] ["1"] := by
  refine ⟨(claim_C6 "GOLD student (miner)" []).1 [], ?_, ?_⟩
  · exact ((claim_C6 "GOLD student (miner)" ["a", "b"]).2.1 " 2 " [] 2
      (by decide) (by decide) (by decide) (by decide)).1
  · exact (claim_C6 "GOLD student (miner)" ["a"]).2.2 "x" ["1"]
      (by decide) (Or.inl (by decide))

end CompareDatasets
